import Mathlib

/-
Verification of the trace query-construction and response-normalization pipeline
of the grafana-opensearch-datasource repository.

The definitions below are a shallow embedding of:
  - src/src/traces/formatTraces.ts  (normalization, span-row assembly, trace-list assembly)
  - src/src/Traces.ts               (trace-list aggregation query builder)
  - src/unnamed/part_000            (single-trace query builder)

JavaScript runtime behaviour relevant to this code is modelled explicitly:
values are a JSON-like inductive type extended with `undefined` and `NaN`,
field access on `undefined`/`null` raises a TypeError (modelled with `Except`),
and lodash `set` is modelled as a dot-path walk that merges into existing
nested mappings and replaces non-mapping intermediates with a fresh mapping.
-/

namespace OSTrace

/-- A JavaScript value as it occurs in OpenSearch trace responses.  Objects are
modelled as association lists in property-insertion (enumeration) order.
`vNaN` stands for the IEEE NaN produced by failed numeric coercions; numbers
are otherwise modelled as exact rationals (double rounding is not modelled,
no claim depends on it). -/
inductive Value where
  | vUndefined : Value
  | vNull : Value
  | vNaN : Value
  | vBool : Bool → Value
  | vNum : Rat → Value
  | vStr : String → Value
  | vArr : List Value → Value
  | vObj : List (String × Value) → Value

/-- JavaScript truthiness: `undefined`, `null`, `NaN`, `false`, `0` and the
empty string are falsy; every other value (including empty arrays and empty
objects) is truthy. -/
def isTruthy : Value → Bool
  | Value.vUndefined => false
  | Value.vNull => false
  | Value.vNaN => false
  | Value.vBool b => b
  | Value.vNum q => decide (q ≠ 0)
  | Value.vStr s => decide (s ≠ "")
  | Value.vArr _ => true
  | Value.vObj _ => true

/-- Property read on an object's field list; absent keys read as `undefined`. -/
def objGet : List (String × Value) → String → Value
  | [], _ => Value.vUndefined
  | (k', v) :: rest, k => if k' = k then v else objGet rest k

/-- Property write on an object's field list: an existing key is updated in
place (JS objects keep the original insertion position), a new key is appended. -/
def assocSet : List (String × Value) → String → Value → List (String × Value)
  | [], k, v => [(k, v)]
  | (k', v') :: rest, k, v =>
      if k' = k then (k', v) :: rest else (k', v') :: assocSet rest k v

/-- Whether a character may appear in a plain property name: the lodash
regex reIsPlainProp accepts word characters (letters, digits, underscore). -/
def isWordChar (c : Char) : Bool := c.isAlphanum || c = '_'

/-- The lodash reIsPlainProp test: the whole key consists of word characters
(the empty key included). -/
def isPlainProp (s : String) : Bool := s.toList.all isWordChar

/-- Scan for a bracket segment (an opening bracket later closed with no
bracket character between), the bracket alternative of lodash reIsDeepProp.
The flag records an open bracket with no bracket character since. -/
def hasBracketSegAux : Bool → List Char → Bool
  | _, [] => false
  | seen, c :: rest =>
      if c = '[' then hasBracketSegAux true rest
      else if c = ']' then (seen || hasBracketSegAux false rest)
      else hasBracketSegAux seen rest

/-- The lodash reIsDeepProp test: the key holds a dot or a bracket segment.
(The regex's quoted-bracket alternative differs only for quoted segments
that themselves contain brackets; backend field keys have none.) -/
def isDeepProp (s : String) : Bool :=
  s.toList.any (fun c => c = '.') || hasBracketSegAux false s.toList

/-- The lodash isIndex test on a path segment (reIsUint): the segment is "0",
or a nonzero digit followed by digits. -/
def isIndexSeg (s : String) : Bool :=
  match s.toList with
  | [] => false
  | ['0'] => true
  | c :: rest => c.isDigit && c ≠ '0' && rest.all Char.isDigit

/-- The numeric value of a digit segment. -/
def toNatDigits (s : String) : Nat :=
  s.toList.foldl (fun n c => n * 10 + (c.toNat - 48)) 0

/-- Does a separator or the end follow: the tail of the empty-segment
lookahead of lodash rePropName. -/
def sepEnd : List Char → Bool
  | [] => true
  | '.' :: _ => true
  | '[' :: ']' :: _ => true
  | _ => false

/-- The empty-segment lookahead of lodash rePropName: the position starts a
dot or an empty bracket pair that another separator or the end follows. -/
def sepAhead : List Char → Bool
  | '.' :: rest => sepEnd rest
  | '[' :: ']' :: rest => sepEnd rest
  | _ => false

/-- The characters a bare path token may not contain (dot and brackets). -/
def isPathSep (c : Char) : Bool := c = '.' || c = '[' || c = ']'

/-- A quoted bracket segment after the opening bracket and quote: the content
up to the closing quote, which the closing bracket must follow.  (Backslash
escapes inside the quotes are not modelled; backend keys contain none.) -/
def quotedSeg (q : Char) (cs : List Char) : Option (String × List Char) :=
  let content := cs.takeWhile (fun c => c ≠ q)
  match cs.dropWhile (fun c => c ≠ q) with
  | _ :: ']' :: rest => some (String.mk content, rest)
  | _ => none

/-- A bracket segment body after the opening bracket, per lodash rePropName:
a decimal number (optional minus sign and fraction) or a quoted string,
the closing bracket included. -/
def bracketSeg (cs : List Char) : Option (String × List Char) :=
  match cs with
  | '\x27' :: rest => quotedSeg '\x27' rest
  | '"' :: rest => quotedSeg '"' rest
  | _ =>
      let negChars : List Char := match cs with
        | '-' :: _ => ['-']
        | _ => []
      let cs1 : List Char := match cs with
        | '-' :: t => t
        | _ => cs
      let d1 := cs1.takeWhile Char.isDigit
      let cs2 := cs1.dropWhile Char.isDigit
      if d1.isEmpty then none
      else
        match cs2 with
        | ']' :: rest => some (String.mk (negChars ++ d1), rest)
        | '.' :: cs3 =>
            let d2 := cs3.takeWhile Char.isDigit
            let cs4 := cs3.dropWhile Char.isDigit
            if d2.isEmpty then none
            else
              match cs4 with
              | ']' :: rest => some (String.mk (negChars ++ d1 ++ ['.'] ++ d2), rest)
              | _ => none
        | _ => none

/-- One left-to-right pass of lodash rePropName over the key's characters:
a maximal run outside dots and brackets is a token, a number or quoted
bracket segment is a token, a dot or empty bracket pair followed by another
separator or the end contributes an empty token, and any other separator
character is skipped.  Fuel is one unit per scan step; every step consumes
at least one character, so the character count suffices. -/
def pathTokensAux : Nat → List Char → List String
  | 0, _ => []
  | Nat.succ _, [] => []
  | Nat.succ fuel, c :: rest =>
      if isPathSep c then
        if sepAhead (c :: rest) then "" :: pathTokensAux fuel rest
        else if c = '[' then
          match bracketSeg rest with
          | some (tok, rest2) => tok :: pathTokensAux fuel rest2
          | none => pathTokensAux fuel rest
        else pathTokensAux fuel rest
      else
        String.mk ((c :: rest).takeWhile (fun ch => !isPathSep ch))
          :: pathTokensAux fuel ((c :: rest).dropWhile (fun ch => !isPathSep ch))

/-- The lodash stringToPath: a leading dot contributes a leading empty
segment, then rePropName's tokens. -/
def stringToPath (s : String) : List String :=
  let toks := pathTokensAux (s.toList.length + 1) s.toList
  match s.toList with
  | '.' :: _ => "" :: toks
  | _ => toks

/-- The lodash castPath for a string key written into the normalization
target: a key that is a plain property name (it matches the word regex, or
holds neither a dot nor a bracket segment) is used whole, so for example
`span.attributes.http@status_code` splits at its dots only; any other key is
split by stringToPath, bracket segments included (`a[0]` becomes `a`, `0`).
(castPath's remaining clause, key-already-a-property-of-the-target, cannot
fire here: a deep-looking key is never stored literally by `set`, and the
normalization target starts empty.) -/
def castPathKey (s : String) : List String :=
  if isPlainProp s || !isDeepProp s then [s] else stringToPath s

/-- Setting an array element at an index, extending the array with undefined
holes as JavaScript assignment beyond the length does. -/
def listSetAt : List Value → Nat → Value → List Value
  | [], 0, v => [v]
  | [], Nat.succ n, v => Value.vUndefined :: listSetAt [] n v
  | _ :: xs, 0, v => v :: xs
  | x :: xs, Nat.succ n, v => x :: listSetAt xs n v

/-- The lodash isObject test as it matters to `set`: mappings and arrays are
kept and merged into during the walk; every other value is replaced. -/
def isJsObject : Value → Bool
  | Value.vObj _ => true
  | Value.vArr _ => true
  | _ => false

/-- Reading the walk's next slot: a mapping's property, or an array's element
at an index segment.  (A string-keyed property previously stored on an array
is not representable in `Value` and reads as undefined; no claim's statement
reaches that corner.) -/
def containerGet : Value → String → Value
  | Value.vObj fields, k => objGet fields k
  | Value.vArr elems, k =>
      if isIndexSeg k then elems.getD (toNatDigits k) Value.vUndefined else Value.vUndefined
  | _, _ => Value.vUndefined

/-- The lodash assignValue during a `set` walk: a mapping gains or updates
the key, an array updates the indexed element (extending as needed).
JavaScript would also accept a non-index key on an array, storing a
string-keyed property on the array object; `Value` arrays carry no property
table, so that write is dropped — a documented model limitation that no
claim's statement reaches. -/
def assignValue : Value → String → Value → Value
  | Value.vObj fields, k, v => Value.vObj (assocSet fields k v)
  | Value.vArr elems, k, v =>
      if isIndexSeg k then Value.vArr (listSetAt elems (toNatDigits k) v) else Value.vArr elems
  | c, _, _ => c

/-- One lodash `set` call over an already-split path (baseSet): walk the
segments; an existing mapping or array at an intermediate segment is kept
and merged into, any other value is replaced by a fresh array (when the next
segment is an index) or a fresh mapping; the leaf segment overwrites. -/
def setPathV : Value → List String → Value → Value
  | container, [], _ => container
  | container, [k], v => assignValue container k v
  | container, k :: k2 :: rest, v =>
      let objValue := containerGet container k
      let child :=
        if isJsObject objValue then objValue
        else if isIndexSeg k2 then Value.vArr [] else Value.vObj []
      assignValue container k (setPathV child (k2 :: rest) v)

/-- Normalization loop of `transformTraceResponse`
(src/src/traces/formatTraces.ts lines 139-142):
`Object.keys(spanData).map(key => set(nestedSpan, key, spanData[key]))`
starting from the empty object.  The input list is the document's key/value
pairs in `Object.keys` enumeration order.  The accumulator always stays a
mapping (assignValue preserves the constructor), so the final match's
default branch is unreachable. -/
def normalizeDoc (doc : List (String × Value)) : List (String × Value) :=
  match doc.foldl (fun acc kv => setPathV acc (castPathKey kv.1) kv.2) (Value.vObj []) with
  | Value.vObj fields => fields
  | _ => []

/-- A JavaScript runtime exception observable from this pipeline. -/
inductive JsError where
  | typeError : String → JsError
  deriving DecidableEq

/-- Result of running a piece of the pipeline: either a value or a thrown
exception that propagates to the caller. -/
abbrev JsResult (α : Type) : Type := Except JsError α

/-- Plain property access `base.k`: throws a TypeError when the base is
`undefined` or `null`, reads the property of an object, and yields
`undefined` on other primitives (string index/length properties are not
needed here). -/
def jsGet : Value → String → JsResult Value
  | Value.vUndefined, k =>
      .error (JsError.typeError ("Cannot read properties of undefined (reading " ++ k ++ ")"))
  | Value.vNull, k =>
      .error (JsError.typeError ("Cannot read properties of null (reading " ++ k ++ ")"))
  | Value.vObj fields, k => .ok (objGet fields k)
  | _, _ => .ok Value.vUndefined

/-- Optional-chaining access `base?.k`: `undefined`/`null` bases short-circuit
to `undefined` instead of throwing. -/
def optChain (v : Value) (k : String) : Value :=
  match v with
  | Value.vObj fields => objGet fields k
  | _ => Value.vUndefined

/-- Nullish coalescing against an empty object literal: `x ?? {}`. -/
def orEmptyObj (v : Value) : Value :=
  match v with
  | Value.vUndefined => Value.vObj []
  | Value.vNull => Value.vObj []
  | v => v

/-- Use of a value as an array (calling `.some`, `.filter`, `.map` on it):
anything but an array throws a TypeError. -/
def asArray : Value → JsResult (List Value)
  | Value.vArr l => .ok l
  | Value.vUndefined => .error (JsError.typeError "undefined is not an array")
  | Value.vNull => .error (JsError.typeError "null is not an array")
  | _ => .error (JsError.typeError "array method called on a non-array value")

/-- Reading `.length`: throws on `undefined`/`null`, yields the element count
of arrays and the length of strings, and `undefined` on other values. -/
def jsLength : Value → JsResult Value
  | Value.vUndefined =>
      .error (JsError.typeError "Cannot read properties of undefined (reading length)")
  | Value.vNull =>
      .error (JsError.typeError "Cannot read properties of null (reading length)")
  | Value.vArr l => .ok (Value.vNum l.length)
  | Value.vStr s => .ok (Value.vNum s.length)
  | _ => .ok Value.vUndefined

/-- JavaScript ToNumber on the values that can reach the duration multiply.
String parsing and object-to-primitive coercion are not modelled (durations
arrive from the backend as numbers); `none` stands for NaN. -/
def toNumber : Value → Option Rat
  | Value.vNum q => some q
  | Value.vNull => some 0
  | Value.vBool b => some (if b then 1 else 0)
  | _ => none

/-- The duration conversion `nestedSpan.durationInNanos * 0.000001`
(nanoseconds to milliseconds), modelled with exact rational arithmetic. -/
def mulMicro (v : Value) : Value :=
  match toNumber v with
  | some q => Value.vNum (q / 1000000)
  | none => Value.vNaN

/-- Rendering of a rational in a template literal.  Integral values render
exactly as in JavaScript; the shortest-round-trip formatting of fractional
doubles is not modelled digit-for-digit. -/
def ratToJsString (q : Rat) : String :=
  if q.den = 1 then toString q.num else toString q.num ++ "/" ++ toString q.den

/-- Whether a value is `null` or `undefined` (these render as the empty string
inside an array join). -/
def isNullish : Value → Bool
  | Value.vNull => true
  | Value.vUndefined => true
  | _ => false

/-- JavaScript string interpolation of a value, as in
`` `${event.name}: ${event.attributes.error}` ``. -/
def jsToString : Value → String
  | Value.vUndefined => "undefined"
  | Value.vNull => "null"
  | Value.vNaN => "NaN"
  | Value.vBool true => "true"
  | Value.vBool false => "false"
  | Value.vNum q => ratToJsString q
  | Value.vStr s => s
  | Value.vObj _ => "[object Object]"
  | Value.vArr l =>
      String.intercalate "," (l.attach.map fun x =>
        if isNullish x.1 then "" else jsToString x.1)
decreasing_by
  have h := List.sizeOf_lt_of_mem x.2
  simp only [Value.vArr.sizeOf_spec]
  omega

/-- One `{key, value}` pair of the Grafana trace view (TraceKeyValuePair). -/
structure TraceKeyValuePair where
  key : String
  value : Value

/-- Function `convertToKeyValue` (formatTraces.ts lines 178-183):
`Object.keys(tags).map(key => ({key, value: tags[key]}))`, preserving the
mapping's enumeration order.  Non-object arguments have no enumerable own
properties of interest here and yield the empty list (`Object.keys` of a
number or boolean is empty; the call sites guard away `undefined`/`null`). -/
def convertToKeyValue : Value → List TraceKeyValuePair
  | Value.vObj fields => fields.map fun kv => { key := kv.1, value := kv.2 }
  | _ => []

/-- One Grafana trace log entry (TraceLog): a timestamp and a field list. -/
structure TraceLog where
  timestamp : Value
  fields : List TraceKeyValuePair

/-- The span row handed to the Grafana trace view (TraceSpanRow), as built by
`transformTraceResponse` in src/src/traces/formatTraces.ts lines 145-162.
`stackTraces := none` models the key being absent from the returned object. -/
structure TraceSpanRow where
  parentSpanID : Value
  traceID : Value
  spanID : Value
  operationName : Value
  startTime : Value
  duration : Value
  serviceName : Value
  tags : List TraceKeyValuePair
  serviceTags : List TraceKeyValuePair
  stackTraces : Option (List String)
  logs : List TraceLog

/-- One hit of the single-trace search response: the raw span document is its
`_source`, an arbitrary mapping from (possibly dot-notated) keys to values in
enumeration order. -/
structure OpenSearchSpan where
  _source : List (String × Value)

/-- Function `spanHasError` (formatTraces.ts lines 166-168):
`spanEvents.some(event => event.attributes.error)`.  `Array.some` evaluates
the callback left to right and short-circuits at the first truthy result; the
callback throws if an event has no object `attributes`. -/
def spanHasError : List Value → JsResult Bool
  | [] => .ok false
  | e :: rest =>
      match jsGet e "attributes" with
      | .error er => .error er
      | .ok attrs =>
          match jsGet attrs "error" with
          | .error er => .error er
          | .ok err => if isTruthy err then .ok true else spanHasError rest

/-- The filter step of `getStackTraces`:
`events.filter(event => event.attributes.error)`.  `Array.filter` evaluates
the predicate on every element in order, so a malformed later event still
throws even after earlier matches. -/
def filterErrorEvents : List Value → JsResult (List Value)
  | [] => .ok []
  | e :: rest =>
      match jsGet e "attributes" with
      | .error er => .error er
      | .ok attrs =>
          match jsGet attrs "error" with
          | .error er => .error er
          | .ok err =>
              match filterErrorEvents rest with
              | .error er => .error er
              | .ok tail => .ok (if isTruthy err then e :: tail else tail)

/-- The map step of `getStackTraces`: one string
`` `${event.name}: ${event.attributes.error}` `` per event. -/
def eventErrorString (e : Value) : JsResult String :=
  match jsGet e "name" with
  | .error er => .error er
  | .ok name =>
      match jsGet e "attributes" with
      | .error er => .error er
      | .ok attrs =>
          match jsGet attrs "error" with
          | .error er => .error er
          | .ok err => .ok (jsToString name ++ ": " ++ jsToString err)

/-- `errEvents.map(event => ...)` over `eventErrorString`, left to right. -/
def mapEventErrorStrings : List Value → JsResult (List String)
  | [] => .ok []
  | e :: rest =>
      match eventErrorString e with
      | .error er => .error er
      | .ok s =>
          match mapEventErrorStrings rest with
          | .error er => .error er
          | .ok tail => .ok (s :: tail)

/-- Function `getStackTraces` (formatTraces.ts lines 170-176): filter the
events to those with a truthy `attributes.error`, map each to
`"<name>: <error>"`, and return `undefined` (here `none`) instead of an
empty list, because an empty list renders as a literal "0" in the panel. -/
def getStackTraces (events : List Value) : JsResult (Option (List String)) :=
  match filterErrorEvents events with
  | .error er => .error er
  | .ok errEvents =>
      match mapEventErrorStrings errEvents with
      | .error er => .error er
      | .ok strs => .ok (if strs.length > 0 then some strs else none)

/-- Function `transformEventsIntoLogs` (formatTraces.ts lines 185-190): every
event becomes a log entry with a parsed timestamp and a single
`{key: "name", value: event.name}` field.  `jsDate` stands for the external
`new Date(x).getTime()` facility. -/
def transformEventsIntoLogs (jsDate : Value → Value) : List Value → JsResult (List TraceLog)
  | [] => .ok []
  | e :: rest =>
      match jsGet e "time" with
      | .error er => .error er
      | .ok t =>
          match jsGet e "name" with
          | .error er => .error er
          | .ok n =>
              match transformEventsIntoLogs jsDate rest with
              | .error er => .error er
              | .ok tail => .ok ({ timestamp := jsDate t, fields := [{ key := "name", value := n }] } :: tail)

/-- The per-document body of `transformTraceResponse`
(formatTraces.ts lines 134-162): normalize the dot-notated `_source`, compute
the error flag (an absent `events` key is guarded to `false` on line 143),
and assemble the span row.  The unguarded `nestedSpan.events.length` read on
line 161 and the array-method calls are where exceptions can arise; the
remaining reads are plain property accesses on the normalized object.
`jsDate` stands for `new Date(x).getTime()`. -/
def transformSpan (jsDate : Value → Value) (span : OpenSearchSpan) : JsResult TraceSpanRow :=
  let nestedSpan := normalizeDoc span._source
  let eventsV := objGet nestedSpan "events"
  let hasErrorR : JsResult Bool :=
    if isTruthy eventsV then
      match asArray eventsV with
      | .error er => .error er
      | .ok evs => spanHasError evs
    else .ok false
  match hasErrorR with
  | .error er => .error er
  | .ok hasErr =>
    let stRes : JsResult (Option (List String)) :=
      if hasErr then
        match asArray eventsV with
        | .error er => .error er
        | .ok evs => getStackTraces evs
      else .ok none
    match stRes with
    | .error er => .error er
    | .ok stackTraces =>
      match jsLength eventsV with
      | .error er => .error er
      | .ok lenV =>
        let logsR : JsResult (List TraceLog) :=
          if isTruthy lenV then
            match asArray eventsV with
            | .error er => .error er
            | .ok evs => transformEventsIntoLogs jsDate evs
          else .ok []
        match logsR with
        | .error er => .error er
        | .ok logs =>
          .ok {
            parentSpanID := objGet nestedSpan "parentSpanId"
            traceID := objGet nestedSpan "traceId"
            spanID := objGet nestedSpan "spanId"
            operationName := objGet nestedSpan "name"
            startTime := jsDate (objGet nestedSpan "startTime")
            duration := mulMicro (objGet nestedSpan "durationInNanos")
            serviceName := objGet nestedSpan "serviceName"
            tags := convertToKeyValue (orEmptyObj (optChain (objGet nestedSpan "span") "attributes"))
                      ++ [{ key := "error", value := Value.vBool hasErr }]
            serviceTags :=
              if isTruthy (optChain (objGet nestedSpan "resource") "attributes") then
                convertToKeyValue (optChain (objGet nestedSpan "resource") "attributes")
              else []
            stackTraces := stackTraces
            logs := logs }

/-- Function `transformTraceResponse` (formatTraces.ts line 133-164):
`spanList.map(span => ...)`, left to right, an exception aborting the map. -/
def transformTraceResponse (jsDate : Value → Value) : List OpenSearchSpan → JsResult (List TraceSpanRow)
  | [] => .ok []
  | s :: rest =>
      match transformSpan jsDate s with
      | .error er => .error er
      | .ok row =>
          match transformTraceResponse jsDate rest with
          | .error er => .error er
          | .ok tail => .ok (row :: tail)

/-- One `trace_group` sub-bucket (formatTraces.ts lines 16-18). -/
structure TraceGroupBucket where
  key : String
  deriving DecidableEq

/-- The `trace_group` sub-aggregation of a bucket: `{buckets: [...]}`. -/
structure GroupBuckets where
  buckets : List TraceGroupBucket
  deriving DecidableEq

/-- A `{value: number}` metric sub-aggregation (`latency`). -/
structure NumValueAgg where
  value : Rat
  deriving DecidableEq

/-- A `{doc_count: number}` filter sub-aggregation (`error_count`). -/
structure DocCountAgg where
  doc_count : Nat
  deriving DecidableEq

/-- A `{value: string}` metric sub-aggregation (`last_updated`). -/
structure StrValueAgg where
  value : String
  deriving DecidableEq

/-- One aggregation bucket of the trace-list response
(formatTraces.ts lines 19-33). -/
structure TraceBucket where
  key : String
  trace_group : GroupBuckets
  latency : NumValueAgg
  error_count : DocCountAgg
  last_updated : StrValueAgg
  deriving DecidableEq

/-- The `traces` aggregation: `{buckets: [...]}`. -/
structure TracesAgg where
  buckets : List TraceBucket
  deriving DecidableEq

/-- The `aggregations` envelope of the trace-list response. -/
structure Aggregations where
  traces : TracesAgg
  deriving DecidableEq

/-- The trace-list response shape (formatTraces.ts lines 35-41). -/
structure TraceListResponse where
  aggregations : Aggregations
  deriving DecidableEq

/-- One query target; only its `refId` is read by the assemblers. -/
structure OpenSearchTarget where
  refId : String
  deriving DecidableEq

/-- One trace summary row, i.e. the values pushed for one bucket by the
`forEach` of `createListTracesDataFrame` (formatTraces.ts lines 56-62). -/
structure TraceSummaryRow where
  traceId : String
  traceGroup : String
  latencyMs : Rat
  errorCount : Nat
  lastUpdated : String
  deriving DecidableEq

/-- The table frame produced by `createListTracesDataFrame`: the five column
value lists (field names `Trace Id`, `Trace Group`, `Latency (ms)`,
`Error Count`, `Last Updated`), the drill-down link configuration of the
`Trace Id` column, and the response `key`. -/
structure TraceListFrame where
  traceIds : List String
  traceGroups : List String
  latencyValues : List Rat
  errorCounts : List Nat
  lastUpdatedValues : List String
  linkTitle : String
  linkQueryTemplate : String
  datasourceUid : String
  datasourceName : String
  key : String
  deriving DecidableEq

/-- The `forEach` over the buckets (formatTraces.ts lines 56-62), producing
one row per bucket.  `bucket.trace_group.buckets[0].key` on a bucket with no
`trace_group` sub-buckets reads `.key` of `undefined` and throws, aborting
the whole loop (the partially filled local arrays are discarded). -/
def collectBuckets : List TraceBucket → JsResult (List TraceSummaryRow)
  | [] => .ok []
  | b :: rest =>
      match b.trace_group.buckets with
      | [] => .error (JsError.typeError "Cannot read properties of undefined (reading key)")
      | g :: _ =>
          match collectBuckets rest with
          | .error er => .error er
          | .ok tail =>
              .ok ({ traceId := b.key, traceGroup := g.key, latencyMs := b.latency.value,
                     errorCount := b.error_count.doc_count,
                     lastUpdated := b.last_updated.value } :: tail)

/-- Function `createListTracesDataFrame` (formatTraces.ts lines 43-99).
Only `response[0]` is read; `response[0]` of an empty response array is
`undefined` and reading `.aggregations` of it throws.  After the bucket loop
the frame is assembled and keyed by `targets[0].refId`. -/
def createListTracesDataFrame (targets : List OpenSearchTarget)
    (response : List TraceListResponse) (uid name : String) : JsResult TraceListFrame :=
  match response with
  | [] => .error (JsError.typeError "Cannot read properties of undefined (reading aggregations)")
  | r :: _ =>
      match collectBuckets r.aggregations.traces.buckets with
      | .error er => .error er
      | .ok rows =>
          match targets with
          | [] => .error (JsError.typeError "Cannot read properties of undefined (reading refId)")
          | t :: _ =>
              .ok { traceIds := rows.map (·.traceId)
                    traceGroups := rows.map (·.traceGroup)
                    latencyValues := rows.map (·.latencyMs)
                    errorCounts := rows.map (·.errorCount)
                    lastUpdatedValues := rows.map (·.lastUpdated)
                    linkTitle := "Trace: $\x7b__value.raw\x7d"
                    linkQueryTemplate := "traceId: $\x7b__value.raw\x7d"
                    datasourceUid := uid
                    datasourceName := name
                    key := t.refId }

/-- A clause of the boolean query (`range` on a field, or an exact `term`). -/
inductive QueryClause where
  | range : String → String → String → QueryClause
  | term : String → String → QueryClause
  deriving DecidableEq

/-- The `bool` query body: `{must, filter, should, must_not}`. -/
structure BoolQuery where
  must : List QueryClause
  filter : List QueryClause
  should : List QueryClause
  must_not : List QueryClause
  deriving DecidableEq

/-- One aggregation node of the query body's `aggs` tree. -/
inductive Agg where
  | terms : String → Nat → Option String → List (String × Agg) → Agg
  | maxScript : String → String → Agg
  | maxField : String → Agg
  | filterTerm : String → String → Agg

/-- The `luceneQueryObj` embedded in an outbound query. -/
structure LuceneQueryObj where
  size : Nat
  query : BoolQuery
  aggs : Option (List (String × Agg))

/-- The outbound query object.  `extraFields` stands for all other
caller-supplied properties carried through by the `...query` spread. -/
structure OpenSearchQuery where
  refId : String
  luceneQueryMode : Option String
  isSingleTrace : Option Bool
  luceneQueryObj : Option LuceneQueryObj
  extraFields : List (String × Value)

/-- The painless source of the `latency` max-script metric, verbatim from
src/src/Traces.ts line 35 (braces and apostrophes written as hex escapes). -/
def latencyScriptSource : String :=
  "\n                if (doc.containsKey(\x27traceGroupFields.durationInNanos\x27) && !doc[\x27traceGroupFields.durationInNanos\x27].empty) \x7b\n                  return Math.round(doc[\x27traceGroupFields.durationInNanos\x27].value / 10000) / 100.0\n                \x7d\n                return 0\n                "

/-- Java `Math.round` on an exact rational: floor of x + 1/2. -/
def mathRound (q : Rat) : Int := ⌊q + 1 / 2⌋

/-- Semantics of the painless latency script, modelled from
`latencyScriptSource`: an absent/empty duration field yields 0; otherwise the
document's long `durationInNanos` is divided by 10000 (long division
truncates), rounded, and divided by 100.0.  Durations are non-negative. -/
def latencyScriptFn : Option Nat → Rat
  | none => 0
  | some d => (mathRound ((d / 10000 : Nat) : Rat) : Rat) / 100

/-- Function `createDefaultTraceQuery` (src/src/Traces.ts lines 4-57): the
trace-list aggregation query. -/
def createDefaultTraceQuery (q : OpenSearchQuery) : OpenSearchQuery :=
  { q with
    luceneQueryMode := some "traces"
    luceneQueryObj := some {
      size := 10
      query := { must := [QueryClause.range "startTime" "$timeFrom" "$timeTo"]
                 filter := [], should := [], must_not := [] }
      aggs := some [("traces", Agg.terms "traceId" 100 (some "asc")
        [("latency", Agg.maxScript latencyScriptSource "painless"),
         ("trace_group", Agg.terms "traceGroup" 1 none []),
         ("error_count", Agg.filterTerm "traceGroupFields.statusCode" "2"),
         ("last_updated", Agg.maxField "traceGroupFields.endTime")])] } }

/-- Function `createSingleTraceQuery` (src/unnamed/part_000 lines 66-84):
the single-trace lookup query.  The trace ID in the `term` clause is the
hard-coded constant from the source (commented there with
"Manually Update me! (for now)"); the function takes no trace-ID argument. -/
def createSingleTraceQuery (q : OpenSearchQuery) : OpenSearchQuery :=
  { q with
    isSingleTrace := some true
    luceneQueryMode := some "traces"
    luceneQueryObj := some {
      size := 1000
      query := { must := [QueryClause.range "startTime" "$timeFrom" "$timeTo",
                          QueryClause.term "traceId" "0000000000000000061141afde96cda8"]
                 filter := [], should := [], must_not := [] }
      aggs := none } }

/-- A well-formed span event, as described by the backend schema:
a `name`, a `time` and an `attributes` mapping. -/
structure EventView where
  name : Value
  time : Value
  attributes : List (String × Value)

/-- The event as it appears inside the normalized span's `events` array. -/
def encodeEvent (e : EventView) : Value :=
  Value.vObj [("name", e.name), ("time", e.time), ("attributes", Value.vObj e.attributes)]

/-- The event's `attributes.error` value (`undefined` when absent). -/
def eventError (e : EventView) : Value := objGet e.attributes "error"

/-- Whether the event's `attributes.error` is truthy. -/
def eventHasError (e : EventView) : Bool := isTruthy (eventError e)

/-- The stack-trace line an error event contributes:
`"<event.name>: <event.attributes.error>"`. -/
def eventErrorLine (e : EventView) : String :=
  jsToString e.name ++ ": " ++ jsToString (eventError e)

/-- The key of a bucket's first `trace_group` sub-bucket (the buckets the
assembler accepts always have one; the default is never reached then). -/
def firstGroupKey (b : TraceBucket) : String :=
  (b.trace_group.buckets.headD { key := "" }).key

/-- The summary row a well-formed bucket yields. -/
def rowOfBucket (b : TraceBucket) : TraceSummaryRow :=
  { traceId := b.key
    traceGroup := firstGroupKey b
    latencyMs := b.latency.value
    errorCount := b.error_count.doc_count
    lastUpdated := b.last_updated.value }

/- Demonstration inputs used by the witnesses. -/

/-- A span event carrying a truthy error attribute. -/
def demoEvent : EventView :=
  { name := Value.vStr "exception"
    time := Value.vStr "2024-01-01T00:00:00Z"
    attributes := [("error", Value.vStr "boom")] }

/-- A raw span document whose events array holds the one error event. -/
def demoSpanDoc : OpenSearchSpan :=
  { _source := [("events", Value.vArr [encodeEvent demoEvent])] }

/-- The aggregation bucket of the trace-list end-to-end example. -/
def demoBucket : TraceBucket :=
  { key := "abc"
    trace_group := { buckets := [{ key := "checkout" }] }
    latency := { value := (85 : Rat) / 2 }
    error_count := { doc_count := 2 }
    last_updated := { value := "2024-01-01T00:00:00Z" } }

/-- A bucket with zero trace_group sub-buckets. -/
def demoBadBucket : TraceBucket :=
  { key := "zzz"
    trace_group := { buckets := [] }
    latency := { value := 0 }
    error_count := { doc_count := 0 }
    last_updated := { value := "" } }

/-- A trace-list response of one well-formed bucket. -/
def demoListResponse : TraceListResponse :=
  { aggregations := { traces := { buckets := [demoBucket] } } }

/-- A trace-list response whose second bucket lacks trace_group sub-buckets. -/
def demoBadResponse : TraceListResponse :=
  { aggregations := { traces := { buckets := [demoBucket, demoBadBucket] } } }

/- Helper lemmas. -/

lemma castPathKey_plain {k : String} (h : (isPlainProp k || !isDeepProp k) = true) :
    castPathKey k = [k] := by
  unfold castPathKey
  rw [if_pos h]

lemma assocSet_of_fresh_key {l : List (String × Value)} {k : String} {v : Value}
    (h : ∀ p ∈ l, p.1 ≠ k) : assocSet l k v = l ++ [(k, v)] := by
  induction l with
  | nil => rfl
  | cons p t ih =>
      have hp : p.1 ≠ k := h p (List.mem_cons_self p t)
      have ht : ∀ q ∈ t, q.1 ≠ k := fun q hq => h q (List.mem_cons_of_mem p hq)
      cases p with
      | mk k' v' => simp [assocSet, hp, ih ht]

lemma foldl_setPathV_plain :
    ∀ (doc accf : List (String × Value)),
      (∀ kv ∈ doc, (isPlainProp kv.1 || !isDeepProp kv.1) = true) →
      (doc.map Prod.fst).Nodup →
      (∀ p ∈ accf, ∀ q ∈ doc, p.1 ≠ q.1) →
      doc.foldl (fun acc kv => setPathV acc (castPathKey kv.1) kv.2) (Value.vObj accf)
        = Value.vObj (accf ++ doc)
  | [], accf, _, _, _ => by simp
  | (k, v) :: rest, accf, hplain, hnodup, hdisj => by
      have hk := hplain (k, v) (List.mem_cons_self _ _)
      have hstep : setPathV (Value.vObj accf) (castPathKey k) v
          = Value.vObj (accf ++ [(k, v)]) := by
        rw [castPathKey_plain hk]
        show Value.vObj (assocSet accf k v) = _
        rw [assocSet_of_fresh_key fun p hp => hdisj p hp (k, v) (List.mem_cons_self _ _)]
      have hknotin : k ∉ rest.map Prod.fst := by
        have := hnodup
        simp only [List.map_cons, List.nodup_cons] at this
        exact this.1
      have hnodup' : (rest.map Prod.fst).Nodup := by
        have := hnodup
        simp only [List.map_cons, List.nodup_cons] at this
        exact this.2
      have hplain' : ∀ kv ∈ rest, (isPlainProp kv.1 || !isDeepProp kv.1) = true :=
        fun kv hm => hplain kv (List.mem_cons_of_mem _ hm)
      have hdisj' : ∀ p ∈ accf ++ [(k, v)], ∀ q ∈ rest, p.1 ≠ q.1 := by
        intro p hp q hq
        rcases List.mem_append.mp hp with hacc | hhd
        · exact hdisj p hacc q (List.mem_cons_of_mem _ hq)
        · have : p = (k, v) := by simpa using hhd
          subst this
          intro he
          apply hknotin
          have : q.1 ∈ rest.map Prod.fst := List.mem_map_of_mem Prod.fst hq
          simpa [← he] using this
      calc ((k, v) :: rest).foldl (fun acc kv => setPathV acc (castPathKey kv.1) kv.2)
            (Value.vObj accf)
          = rest.foldl (fun acc kv => setPathV acc (castPathKey kv.1) kv.2)
              (Value.vObj (accf ++ [(k, v)])) := by
            rw [List.foldl_cons, hstep]
        _ = Value.vObj ((accf ++ [(k, v)]) ++ rest) :=
            foldl_setPathV_plain rest (accf ++ [(k, v)]) hplain' hnodup' hdisj'
        _ = Value.vObj (accf ++ ((k, v) :: rest)) := by simp

lemma spanHasError_encode (evs : List EventView) :
    spanHasError (evs.map encodeEvent) = .ok (evs.any eventHasError) := by
  induction evs with
  | nil => rfl
  | cons e t ih =>
      have h1 : jsGet (encodeEvent e) "attributes" = .ok (Value.vObj e.attributes) := rfl
      have h2 : jsGet (Value.vObj e.attributes) "error" = .ok (eventError e) := rfl
      simp only [List.map_cons, spanHasError, h1, h2]
      cases hc : isTruthy (eventError e) <;>
        simp [List.any_cons, eventHasError, hc, ih]

lemma filterErrorEvents_encode (evs : List EventView) :
    filterErrorEvents (evs.map encodeEvent) = .ok ((evs.filter eventHasError).map encodeEvent) := by
  induction evs with
  | nil => rfl
  | cons e t ih =>
      have h1 : jsGet (encodeEvent e) "attributes" = .ok (Value.vObj e.attributes) := rfl
      have h2 : jsGet (Value.vObj e.attributes) "error" = .ok (eventError e) := rfl
      simp only [List.map_cons, filterErrorEvents, h1, h2, ih]
      cases hc : isTruthy (eventError e) <;>
        simp [List.filter_cons, eventHasError, hc]

lemma mapEventErrorStrings_encode (evs : List EventView) :
    mapEventErrorStrings (evs.map encodeEvent) = .ok (evs.map eventErrorLine) := by
  induction evs with
  | nil => rfl
  | cons e t ih =>
      have h1 : eventErrorString (encodeEvent e) = .ok (eventErrorLine e) := rfl
      simp only [List.map_cons, mapEventErrorStrings, h1, ih]

lemma getStackTraces_encode (evs : List EventView) :
    getStackTraces (evs.map encodeEvent) =
      .ok (if 0 < (evs.filter eventHasError).length
           then some ((evs.filter eventHasError).map eventErrorLine) else none) := by
  simp only [getStackTraces, filterErrorEvents_encode, mapEventErrorStrings_encode]
  simp

lemma transformEventsIntoLogs_encode (jsDate : Value → Value) (evs : List EventView) :
    transformEventsIntoLogs jsDate (evs.map encodeEvent) =
      .ok (evs.map fun e => { timestamp := jsDate e.time
                              fields := [{ key := "name", value := e.name }] }) := by
  induction evs with
  | nil => rfl
  | cons e t ih =>
      have h1 : jsGet (encodeEvent e) "time" = .ok e.time := rfl
      have h2 : jsGet (encodeEvent e) "name" = .ok e.name := rfl
      simp only [List.map_cons, transformEventsIntoLogs, h1, h2, ih]

lemma collectBuckets_ok (bs : List TraceBucket) (h : ∀ b ∈ bs, b.trace_group.buckets ≠ []) :
    collectBuckets bs = .ok (bs.map rowOfBucket) := by
  induction bs with
  | nil => rfl
  | cons b t ih =>
      have hb := h b (List.mem_cons_self b t)
      cases hg : b.trace_group.buckets with
      | nil => exact absurd hg hb
      | cons g gs =>
          have ht : ∀ x ∈ t, x.trace_group.buckets ≠ [] :=
            fun x hx => h x (List.mem_cons_of_mem b hx)
          simp only [collectBuckets, hg, ih ht, List.map_cons]
          simp [rowOfBucket, firstGroupKey, hg]

lemma collectBuckets_err (bs : List TraceBucket) (h : ∃ b ∈ bs, b.trace_group.buckets = []) :
    collectBuckets bs =
      .error (JsError.typeError "Cannot read properties of undefined (reading key)") := by
  induction bs with
  | nil => simp at h
  | cons b t ih =>
      cases hg : b.trace_group.buckets with
      | nil => simp [collectBuckets, hg]
      | cons g gs =>
          have ht : ∃ x ∈ t, x.trace_group.buckets = [] := by
            rcases h with ⟨x, hx, he⟩
            rcases List.mem_cons.mp hx with rfl | hx2
            · rw [hg] at he
              exact absurd he (by simp)
            · exact ⟨x, hx2, he⟩
          simp [collectBuckets, hg, ih ht]

lemma mathRound_natCast (n : Nat) : mathRound (n : Rat) = n := by
  unfold mathRound
  rw [Int.floor_nat_add]
  norm_num

lemma transformSpan_encode (jsDate : Value → Value) (span : OpenSearchSpan) (evs : List EventView)
    (hev : objGet (normalizeDoc span._source) "events" = Value.vArr (evs.map encodeEvent)) :
    transformSpan jsDate span = .ok
      { parentSpanID := objGet (normalizeDoc span._source) "parentSpanId"
        traceID := objGet (normalizeDoc span._source) "traceId"
        spanID := objGet (normalizeDoc span._source) "spanId"
        operationName := objGet (normalizeDoc span._source) "name"
        startTime := jsDate (objGet (normalizeDoc span._source) "startTime")
        duration := mulMicro (objGet (normalizeDoc span._source) "durationInNanos")
        serviceName := objGet (normalizeDoc span._source) "serviceName"
        tags := convertToKeyValue (orEmptyObj (optChain (objGet (normalizeDoc span._source) "span") "attributes"))
                  ++ [{ key := "error", value := Value.vBool (evs.any eventHasError) }]
        serviceTags :=
          if isTruthy (optChain (objGet (normalizeDoc span._source) "resource") "attributes")
          then convertToKeyValue (optChain (objGet (normalizeDoc span._source) "resource") "attributes")
          else []
        stackTraces :=
          if evs.any eventHasError
          then some ((evs.filter eventHasError).map eventErrorLine) else none
        logs :=
          if evs.isEmpty then []
          else evs.map fun e => { timestamp := jsDate e.time
                                  fields := [{ key := "name", value := e.name }] } } := by
  cases hb : evs.any eventHasError with
  | true =>
      have hne : evs ≠ [] := by
        rcases List.any_eq_true.mp hb with ⟨e, he, _⟩
        exact List.ne_nil_of_mem he
      have hisE : evs.isEmpty = false := by
        cases evs with
        | nil => exact absurd rfl hne
        | cons _ _ => rfl
      have hcast : ((evs.length : Nat) : Rat) ≠ 0 :=
        Nat.cast_ne_zero.mpr fun h => hne (List.length_eq_zero.mp h)
      have hfil : evs.filter eventHasError ≠ [] := by
        rcases List.any_eq_true.mp hb with ⟨e, he, hp⟩
        exact List.ne_nil_of_mem (List.mem_filter.mpr ⟨he, hp⟩)
      have hpos : 0 < (evs.filter eventHasError).length := List.length_pos.mpr hfil
      simp [transformSpan, hev, asArray, spanHasError_encode, getStackTraces_encode, jsLength,
            transformEventsIntoLogs_encode, hb, hpos, hisE, hcast, isTruthy]
  | false =>
      by_cases hne : evs = []
      · subst hne
        simp [transformSpan, hev, asArray, spanHasError, getStackTraces, filterErrorEvents,
              mapEventErrorStrings, jsLength, transformEventsIntoLogs, isTruthy]
      · have hisE : evs.isEmpty = false := by
          cases evs with
          | nil => exact absurd rfl hne
          | cons _ _ => rfl
        have hcast : ((evs.length : Nat) : Rat) ≠ 0 :=
          Nat.cast_ne_zero.mpr fun h => hne (List.length_eq_zero.mp h)
        simp [transformSpan, hev, asArray, spanHasError_encode, getStackTraces_encode, jsLength,
              transformEventsIntoLogs_encode, hb, hisE, hcast, isTruthy]

/- Claim theorems. -/

/-- C1: for every span document whose normalized events are a list of
well-formed events, the assembled row's stackTraces field is present if and
only if some event has a truthy attributes.error; when present it holds, in
event order, the string "<name>: <error>" for each such event, and it is
never the empty list. -/
theorem stack_traces_present_iff_error_event (jsDate : Value → Value)
    (span : OpenSearchSpan) (evs : List EventView)
    (hev : objGet (normalizeDoc span._source) "events" = Value.vArr (evs.map encodeEvent)) :
    ∃ row, transformSpan jsDate span = .ok row ∧
      row.stackTraces = (if evs.any eventHasError then
          some ((evs.filter eventHasError).map eventErrorLine) else none) ∧
      (row.stackTraces.isSome ↔ ∃ e ∈ evs, eventHasError e = true) ∧
      (∀ l, row.stackTraces = some l → l ≠ []) := by
  refine ⟨_, transformSpan_encode jsDate span evs hev, rfl, ?_, ?_⟩
  · show (if evs.any eventHasError then
        some ((evs.filter eventHasError).map eventErrorLine) else none).isSome = true ↔ _
    cases hb : evs.any eventHasError with
    | true =>
        rw [if_pos rfl]
        constructor
        · intro _
          exact List.any_eq_true.mp hb
        · intro _
          rfl
    | false =>
        rw [if_neg (by simp)]
        constructor
        · intro h
          exact absurd h (by simp)
        · intro h
          rw [List.any_eq_true.mpr h] at hb
          exact absurd hb (by simp)
  · show ∀ l, (if evs.any eventHasError then
        some ((evs.filter eventHasError).map eventErrorLine) else none) = some l → l ≠ []
    cases hb : evs.any eventHasError with
    | true =>
        intro l hl
        rw [if_pos rfl] at hl
        have hfil : evs.filter eventHasError ≠ [] := by
          rcases List.any_eq_true.mp hb with ⟨e, he, hp⟩
          exact List.ne_nil_of_mem (List.mem_filter.mpr ⟨he, hp⟩)
        rw [← Option.some.inj hl]
        simpa using hfil
    | false =>
        intro l hl
        rw [if_neg (by simp)] at hl
        exact absurd hl (by simp)

/-- C1 witness: a document with one error event `{name: "exception",
attributes: {error: "boom"}}` yields a present stack-trace list, equal to
["exception: boom"]. -/
theorem stack_traces_present_iff_error_event_witness :
    (∃ row, transformSpan (fun _ => Value.vNum 0) demoSpanDoc = .ok row ∧
      row.stackTraces = (if [demoEvent].any eventHasError then
          some (([demoEvent].filter eventHasError).map eventErrorLine) else none) ∧
      (row.stackTraces.isSome ↔ ∃ e ∈ [demoEvent], eventHasError e = true) ∧
      (∀ l, row.stackTraces = some l → l ≠ [])) ∧
    (if [demoEvent].any eventHasError then
        some (([demoEvent].filter eventHasError).map eventErrorLine) else none)
      = some ["exception: boom"] :=
  ⟨stack_traces_present_iff_error_event (fun _ => Value.vNum 0) demoSpanDoc [demoEvent] rfl,
   by
    have hhas : eventHasError demoEvent = true := by
      simp [eventHasError, eventError, demoEvent, objGet, isTruthy]
    have hline : eventErrorLine demoEvent = "exception: boom" := by
      simp [eventErrorLine, demoEvent, eventError, objGet, jsToString]
    simp [hhas, hline]⟩

/-- C2: contrary to the specification, a raw span document whose normalized
form has no events key makes span-row assembly throw: the unguarded
`nestedSpan.events.length` read on line 161 of formatTraces.ts reads
`.length` of `undefined`, so no row with empty logs is produced. -/
theorem missing_events_key_throws_type_error :
    transformSpan (fun _ => Value.vNum 0)
      { _source := [("traceId", Value.vStr "abc"), ("spanId", Value.vStr "s1"),
                    ("name", Value.vStr "op")] } =
      .error (JsError.typeError "Cannot read properties of undefined (reading length)") := rfl

/-- C3 counterexample: a document whose keys "a" and "a.b" define conflicting
nested paths is normalized without any error: the caller receives an
assembled row, and the normalized document shows the scalar at "a" silently
replaced by a nested mapping. -/
theorem conflicting_paths_yield_row_not_error :
    transformSpan (fun _ => Value.vNum 0)
      { _source := [("events", Value.vArr []), ("a", Value.vNum 1), ("a.b", Value.vNum 2)] } =
      Except.ok { parentSpanID := Value.vUndefined
                  traceID := Value.vUndefined
                  spanID := Value.vUndefined
                  operationName := Value.vUndefined
                  startTime := Value.vNum 0
                  duration := Value.vNaN
                  serviceName := Value.vUndefined
                  tags := [{ key := "error", value := Value.vBool false }]
                  serviceTags := []
                  stackTraces := none
                  logs := [] } ∧
    normalizeDoc [("a", Value.vNum 1), ("a.b", Value.vNum 2)] =
      [("a", Value.vObj [("b", Value.vNum 2)])] := ⟨rfl, rfl⟩

/-- C3 amended: normalization never surfaces an error on conflicting nested
paths; lodash `set` silently repairs the document. A dotted path written
after a primitive (neither mapping nor array) value at its prefix replaces
that value with a fresh nested mapping holding only the new leaf, a later
scalar write over an existing nested mapping replaces it (last write wins),
and writes whose prefix already holds a mapping or array merge into the
existing container. -/
theorem conflicting_paths_silently_repaired (v1 v2 : Value)
    (h : isJsObject v1 = false) :
    normalizeDoc [("a", v1), ("a.b", v2)] = [("a", Value.vObj [("b", v2)])] ∧
    normalizeDoc [("a.b", v2), ("a", v1)] = [("a", v1)] := by
  cases v1 with
  | vObj fields => simp [isJsObject] at h
  | vArr elems => simp [isJsObject] at h
  | vUndefined => exact ⟨rfl, rfl⟩
  | vNull => exact ⟨rfl, rfl⟩
  | vNaN => exact ⟨rfl, rfl⟩
  | vBool b => exact ⟨rfl, rfl⟩
  | vNum q => exact ⟨rfl, rfl⟩
  | vStr s => exact ⟨rfl, rfl⟩

/-- C3 amended witness: the scalar 1 at "a" conflicting with "a.b" is
silently repaired in both write orders. -/
theorem conflicting_paths_silently_repaired_witness :
    isJsObject (Value.vNum 1) = false ∧
    (normalizeDoc [("a", Value.vNum 1), ("a.b", Value.vStr "x")] =
        [("a", Value.vObj [("b", Value.vStr "x")])] ∧
      normalizeDoc [("a.b", Value.vStr "x"), ("a", Value.vNum 1)] = [("a", Value.vNum 1)]) :=
  ⟨rfl, conflicting_paths_silently_repaired (Value.vNum 1) (Value.vStr "x") rfl⟩

/-- C4: when every bucket has at least one trace_group sub-bucket, the
trace-list assembler emits exactly one summary row per bucket, in bucket
order, with traceId = bucket.key, traceGroup = first trace_group sub-bucket
key, latencyMs = latency.value, errorCount = error_count.doc_count,
lastUpdated = last_updated.value; no row is filtered out or added. -/
theorem trace_list_one_row_per_bucket (t : OpenSearchTarget) (ts : List OpenSearchTarget)
    (r : TraceListResponse) (rs : List TraceListResponse) (uid dsname : String)
    (h : ∀ b ∈ r.aggregations.traces.buckets, b.trace_group.buckets ≠ []) :
    collectBuckets r.aggregations.traces.buckets =
      .ok (r.aggregations.traces.buckets.map rowOfBucket) ∧
    createListTracesDataFrame (t :: ts) (r :: rs) uid dsname =
      .ok { traceIds := r.aggregations.traces.buckets.map (·.key)
            traceGroups := r.aggregations.traces.buckets.map firstGroupKey
            latencyValues := r.aggregations.traces.buckets.map (·.latency.value)
            errorCounts := r.aggregations.traces.buckets.map (·.error_count.doc_count)
            lastUpdatedValues := r.aggregations.traces.buckets.map (·.last_updated.value)
            linkTitle := "Trace: $\x7b__value.raw\x7d"
            linkQueryTemplate := "traceId: $\x7b__value.raw\x7d"
            datasourceUid := uid
            datasourceName := dsname
            key := t.refId } := by
  refine ⟨collectBuckets_ok _ h, ?_⟩
  simp only [createListTracesDataFrame, collectBuckets_ok _ h]
  simp [rowOfBucket, List.map_map, Function.comp]

/-- C4 witness: the spec's end-to-end example bucket yields exactly the one
expected summary row. -/
theorem trace_list_one_row_per_bucket_witness :
    (∀ b ∈ demoListResponse.aggregations.traces.buckets, b.trace_group.buckets ≠ []) ∧
    createListTracesDataFrame [{ refId := "A" }] [demoListResponse] "uid-1" "opensearch" =
      .ok { traceIds := ["abc"]
            traceGroups := ["checkout"]
            latencyValues := [(85 : Rat) / 2]
            errorCounts := [2]
            lastUpdatedValues := ["2024-01-01T00:00:00Z"]
            linkTitle := "Trace: $\x7b__value.raw\x7d"
            linkQueryTemplate := "traceId: $\x7b__value.raw\x7d"
            datasourceUid := "uid-1"
            datasourceName := "opensearch"
            key := "A" } :=
  ⟨by decide,
   (trace_list_one_row_per_bucket { refId := "A" } [] demoListResponse [] "uid-1" "opensearch"
      (by decide)).2⟩

/-- C5: a bucket with zero trace_group sub-buckets makes trace-list assembly
surface an error (reading .key of undefined), aborting the whole response:
the result is a single failure and no partial row set is emitted. -/
theorem trace_list_missing_trace_group_aborts (targets : List OpenSearchTarget)
    (r : TraceListResponse) (rs : List TraceListResponse) (uid dsname : String)
    (h : ∃ b ∈ r.aggregations.traces.buckets, b.trace_group.buckets = []) :
    createListTracesDataFrame targets (r :: rs) uid dsname =
      .error (JsError.typeError "Cannot read properties of undefined (reading key)") := by
  simp only [createListTracesDataFrame, collectBuckets_err _ h]

/-- C5 witness: a response whose second bucket lacks trace_group sub-buckets
produces the single failure and no rows. -/
theorem trace_list_missing_trace_group_aborts_witness :
    (∃ b ∈ demoBadResponse.aggregations.traces.buckets, b.trace_group.buckets = []) ∧
    createListTracesDataFrame [{ refId := "A" }] [demoBadResponse] "uid-1" "opensearch" =
      .error (JsError.typeError "Cannot read properties of undefined (reading key)") :=
  ⟨by decide,
   trace_list_missing_trace_group_aborts [{ refId := "A" }] demoBadResponse [] "uid-1"
     "opensearch" (by decide)⟩

/-- C6: the single-trace query builder marks the query as a single-trace
request with size 1000 and a startTime range filter, but its term clause
matches the hard-coded constant trace ID for every base query: the function
takes no trace-ID argument, so the caller-supplied trace ID required by the
specification is never used. -/
theorem single_trace_query_ignores_caller_trace_id (q : OpenSearchQuery) :
    (createSingleTraceQuery q).isSingleTrace = some true ∧
    (createSingleTraceQuery q).luceneQueryMode = some "traces" ∧
    (createSingleTraceQuery q).luceneQueryObj = some {
      size := 1000
      query := { must := [QueryClause.range "startTime" "$timeFrom" "$timeTo",
                          QueryClause.term "traceId" "0000000000000000061141afde96cda8"]
                 filter := [], should := [], must_not := [] }
      aggs := none } :=
  ⟨rfl, rfl, rfl⟩

/-- C7: the trace-list query builder emits size 10, a startTime range filter
over [$timeFrom, $timeTo], a traces terms aggregation on traceId of size 100
ordered ascending by key, a latency max-script metric (whose painless source
computes round(durationInNanos / 10000) / 100.0 and 0 when the field is
absent), a trace_group terms aggregation of size 1, an error_count filter on
traceGroupFields.statusCode = "2", and a last_updated max on
traceGroupFields.endTime. -/
theorem trace_list_query_shape (q : OpenSearchQuery) :
    (createDefaultTraceQuery q).luceneQueryMode = some "traces" ∧
    (createDefaultTraceQuery q).luceneQueryObj = some {
      size := 10
      query := { must := [QueryClause.range "startTime" "$timeFrom" "$timeTo"]
                 filter := [], should := [], must_not := [] }
      aggs := some [("traces", Agg.terms "traceId" 100 (some "asc")
        [("latency", Agg.maxScript latencyScriptSource "painless"),
         ("trace_group", Agg.terms "traceGroup" 1 none []),
         ("error_count", Agg.filterTerm "traceGroupFields.statusCode" "2"),
         ("last_updated", Agg.maxField "traceGroupFields.endTime")])] } ∧
    latencyScriptFn none = 0 ∧
    latencyScriptFn (some 12345) = 1 / 100 ∧
    (∀ d : Nat, latencyScriptFn (some d) = ((d / 10000 : Nat) : Rat) / 100) := by
  refine ⟨rfl, rfl, rfl, ?_, ?_⟩
  · norm_num [latencyScriptFn, mathRound]
  · intro d
    simp only [latencyScriptFn]
    rw [mathRound_natCast, Int.cast_natCast]

/-- C8: spanHasError is true exactly when some event in the list has a truthy
attributes.error, and it is false on the empty event list. -/
theorem span_has_error_iff_truthy_error_event :
    spanHasError ([] : List Value) = .ok false ∧
    ∀ evs : List EventView,
      (spanHasError (evs.map encodeEvent) = .ok true ↔ ∃ e ∈ evs, eventHasError e = true) := by
  refine ⟨rfl, fun evs => ?_⟩
  rw [spanHasError_encode]
  simp [List.any_eq_true]

/-- C9 counterexample: the document with the single key "a[0]" contains no
dot, yet normalization is not the identity on it: lodash castPath splits the
bracket segment into the path a, 0, producing the nested mapping
a: [v] instead of the flat document. -/
theorem no_dot_bracket_key_not_identity :
    (('.' : Char) ∉ "a[0]".toList) ∧
    normalizeDoc [("a[0]", Value.vStr "v")] = [("a", Value.vArr [Value.vStr "v"])] ∧
    normalizeDoc [("a[0]", Value.vStr "v")] ≠ [("a[0]", Value.vStr "v")] := by
  refine ⟨by decide, rfl, ?_⟩
  intro h
  rw [show normalizeDoc [("a[0]", Value.vStr "v")] = [("a", Value.vArr [Value.vStr "v"])]
    from rfl] at h
  have hkey : ("a" : String) = "a[0]" :=
    congrArg (fun l => (l.headD ("", Value.vNull)).1) h
  exact absurd hkey (by decide)

/-- C9 amended: normalization is the identity exactly on documents whose
keys lodash castPath treats as plain property names — keys made of word
characters, or containing neither a dot nor a bracket segment.  On such
documents every key maps to the same value, in order, and none is added or
dropped.  (A key with a bracket segment, such as a[0], is path-split even
without a dot.) -/
theorem plain_key_normalization_identity (doc : List (String × Value))
    (hplain : ∀ kv ∈ doc, (isPlainProp kv.1 || !isDeepProp kv.1) = true)
    (hnodup : (doc.map Prod.fst).Nodup) :
    normalizeDoc doc = doc := by
  unfold normalizeDoc
  rw [foldl_setPathV_plain doc [] hplain hnodup
    (by intro p hp; exact absurd hp (List.not_mem_nil p))]
  simp

/-- C9 amended witness: a two-key document with plain keys (one containing
the non-word character of the backend's attribute keys) normalizes to
itself. -/
theorem plain_key_normalization_identity_witness :
    (∀ kv ∈ ([("traceId", Value.vStr "t"), ("service@name", Value.vStr "svc")] :
        List (String × Value)), (isPlainProp kv.1 || !isDeepProp kv.1) = true) ∧
    normalizeDoc [("traceId", Value.vStr "t"), ("service@name", Value.vStr "svc")] =
      [("traceId", Value.vStr "t"), ("service@name", Value.vStr "svc")] :=
  ⟨by decide, plain_key_normalization_identity _ (by decide) (by decide)⟩

/-- C10: the trace-list assembler reads only the first response: two response
arrays with equal first elements produce equal outcomes, so responses past
the first are ignored entirely. -/
theorem trace_list_depends_only_on_first_response (targets : List OpenSearchTarget)
    (rs1 rs2 : List TraceListResponse) (uid dsname : String)
    (h : rs1.head? = rs2.head?) :
    createListTracesDataFrame targets rs1 uid dsname =
      createListTracesDataFrame targets rs2 uid dsname := by
  cases rs1 with
  | nil =>
      cases rs2 with
      | nil => rfl
      | cons r2 t2 => simp at h
  | cons r1 t1 =>
      cases rs2 with
      | nil => simp at h
      | cons r2 t2 =>
          obtain rfl : r1 = r2 := by simpa using h
          rfl

/-- C10 witness: appending a second response leaves the produced frame
unchanged. -/
theorem trace_list_depends_only_on_first_response_witness :
    createListTracesDataFrame [{ refId := "A" }] [demoListResponse, demoBadResponse]
        "uid-1" "opensearch" =
      createListTracesDataFrame [{ refId := "A" }] [demoListResponse] "uid-1" "opensearch" :=
  trace_list_depends_only_on_first_response [{ refId := "A" }]
    [demoListResponse, demoBadResponse] [demoListResponse] "uid-1" "opensearch" rfl

end OSTrace
